import Mathlib

/-!
Shallow embedding of winmtp's path-resolution engine (`src/object/mod.rs`).

Wide strings (`U16CString` / `U16CStr`) are modelled as lists of 16-bit code
units (`List Nat`, exact equality only).  The shared remote-connection context
(`Content`, an external collaborator whose code is outside this repository) is
modelled as a record of the remote primitives the resolver uses, passed
explicitly to every operation; its remote failures are opaque error payloads
propagated unmodified, exactly as the source propagates `windows` errors with
the `?` operator.
-/

/-- A sequence of 16-bit code units, as stored in a `U16CString` or `U16CStr`. -/
abbrev U16Str := List Nat

/-- Opaque remote error payload. The source propagates `windows::core::Error`
values unmodified; only their identity matters here. -/
abbrev WinError := Nat

/-- `U16CString::from_vec_truncate` / `from_os_str_truncate`: keep the code
units strictly before the first NUL (0) code unit. -/
def truncAtNul (xs : U16Str) : U16Str :=
  xs.takeWhile (fun u => u != 0)

/-- `ObjectType` (`src/object/object_type.rs`, spec section 3): a folder, a
file, or an unrecognized remote-reported raw code. -/
inductive ObjectType where
  | Folder
  | File
  | Other (raw : Nat)
  deriving DecidableEq, Repr

/-- `Object` (`src/object/mod.rs`): the handle binding a remote id, a cached
display name and a cached type.  The shared `device_content` connection
context is passed explicitly to the operations below (shallow embedding of
the shared reference). -/
structure Object where
  id : U16Str
  name : U16Str
  ty : ObjectType
  deriving DecidableEq, Repr

/-- The remote connection context (`Content`): the tuple of remote primitives
the resolver uses.  `enumChildren` models `EnumObjects` plus the per-child
property fetches done by `ObjectIterator`; `getParentRaw` models
`get_object_properties(WPD_OBJECT_PARENT_ID)` followed by `GetStringValue`
(the raw wide string, before NUL truncation); `objectById` models
`Content::object_by_id`. -/
structure Content where
  enumChildren : U16Str → Except WinError (List Object)
  getParentRaw : U16Str → Except WinError U16Str
  objectById : U16Str → Except WinError Object

/-- `ItemByPathError` (`src/error.rs`, not under `src/` here): the local
failures `NotFound` and `AbsolutePath`, plus the remote failures converted
from `windows` errors by the `?` operator, carried unmodified.  The spec's
`PropertyLookupError` and `EnumerationError` are the `Device` payloads coming
from the parent-property fetch and the child enumeration respectively. -/
inductive ItemByPathError where
  | NotFound
  | AbsolutePath
  | Device (e : WinError)
  deriving DecidableEq, Repr

/-- `std::path::Component`, restricted to what the resolver distinguishes:
`Normal(name)` (name as OS code units), `CurDir` (`.`), `ParentDir` (`..`),
and the two absolute-path markers `Prefix(_)` (here `PrefixComp`) and
`RootDir`. -/
inductive Component where
  | Normal (name : U16Str)
  | CurDir
  | ParentDir
  | PrefixComp
  | RootDir
  deriving DecidableEq, Repr

/-- `Object::parent_id`: one remote property fetch for the parent id, then
`U16CString::from_vec_truncate` on the returned wide string. -/
def Object.parent_id (o : Object) (c : Content) : Except WinError U16Str :=
  match c.getParentRaw o.id with
  | Except.error e => Except.error e
  | Except.ok raw => Except.ok (truncAtNul raw)

/-- `Object::children`: begin a child enumeration for this handle's id. -/
def Object.children (o : Object) (c : Content) : Except WinError (List Object) :=
  c.enumChildren o.id

/-- `Object::sub_folders`: `self.children().map(|ch| ch.filter(type == Folder))`. -/
def Object.sub_folders (o : Object) (c : Content) : Except WinError (List Object) :=
  (o.children c).map (fun kids => kids.filter (fun obj => obj.ty == ObjectType.Folder))

/-- `Object::object_by_components`: the recursive component walk.  The source's
mutual tail call through `object_by_components_last_stage` is inlined as the
`match rest` at the end of each candidate-producing branch so that the
recursion is structural on the component list; `object_by_components_last_stage`
below is the same helper, and the step lemmas restate each branch through it. -/
def object_by_components : Content → Object → List Component → Except ItemByPathError Object
  | _, _, [] => Except.error ItemByPathError.NotFound
  | c, o, Component.Normal name :: rest =>
    let haystack := truncAtNul name
    match o.children c with
    | Except.error e => Except.error (ItemByPathError.Device e)
    | Except.ok kids =>
      match kids.find? (fun obj => obj.name == haystack) with
      | none => Except.error ItemByPathError.NotFound
      | some candidate =>
        match rest with
        | [] => Except.ok candidate
        | _ :: _ => object_by_components c candidate rest
  | c, o, Component.CurDir :: rest =>
    match rest with
    | [] => Except.ok o
    | _ :: _ => object_by_components c o rest
  | c, o, Component.ParentDir :: rest =>
    match o.parent_id c with
    | Except.error e => Except.error (ItemByPathError.Device e)
    | Except.ok pid =>
      match c.objectById pid with
      | Except.error e => Except.error (ItemByPathError.Device e)
      | Except.ok candidate =>
        match rest with
        | [] => Except.ok candidate
        | _ :: _ => object_by_components c candidate rest
  | _, _, Component.PrefixComp :: _ => Except.error ItemByPathError.AbsolutePath
  | _, _, Component.RootDir :: _ => Except.error ItemByPathError.AbsolutePath

/-- `object_by_components_last_stage`: if no components remain the candidate is
the final result, otherwise recurse with the candidate as the new origin. -/
def object_by_components_last_stage (c : Content) (candidate : Object) (next_components : List Component) : Except ItemByPathError Object :=
  match next_components with
  | [] => Except.ok candidate
  | _ :: _ => object_by_components c candidate next_components

/-- `Object::object_by_path`: decompose the relative path and delegate.  The
decomposition of a raw path into components is the host facility
(`Path::components`); the path is taken already decomposed. -/
def object_by_path (c : Content) (o : Object) (relative_path : List Component) : Except ItemByPathError Object :=
  object_by_components c o relative_path

/-- Fuel-indexed variant of `object_by_components`: consumes exactly one unit
of fuel per consumed path component and answers `none` when the fuel runs out
before the walk does.  It witnesses that the recursion depth of the resolver
is bounded by the input component count, independent of the remote tree. -/
def object_by_components_fuel (c : Content) : Nat → Object → List Component → Option (Except ItemByPathError Object)
  | _, _, [] => some (Except.error ItemByPathError.NotFound)
  | 0, _, _ :: _ => none
  | Nat.succ fuel, o, Component.Normal name :: rest =>
    let haystack := truncAtNul name
    match o.children c with
    | Except.error e => some (Except.error (ItemByPathError.Device e))
    | Except.ok kids =>
      match kids.find? (fun obj => obj.name == haystack) with
      | none => some (Except.error ItemByPathError.NotFound)
      | some candidate =>
        match rest with
        | [] => some (Except.ok candidate)
        | _ :: _ => object_by_components_fuel c fuel candidate rest
  | Nat.succ fuel, o, Component.CurDir :: rest =>
    match rest with
    | [] => some (Except.ok o)
    | _ :: _ => object_by_components_fuel c fuel o rest
  | Nat.succ fuel, o, Component.ParentDir :: rest =>
    match o.parent_id c with
    | Except.error e => some (Except.error (ItemByPathError.Device e))
    | Except.ok pid =>
      match c.objectById pid with
      | Except.error e => some (Except.error (ItemByPathError.Device e))
      | Except.ok candidate =>
        match rest with
        | [] => some (Except.ok candidate)
        | _ :: _ => object_by_components_fuel c fuel candidate rest
  | Nat.succ _, _, Component.PrefixComp :: _ => some (Except.error ItemByPathError.AbsolutePath)
  | Nat.succ _, _, Component.RootDir :: _ => some (Except.error ItemByPathError.AbsolutePath)

/-- Textual removal of `.` components from a component stream: the
normalization the spec says is NOT performed before resolution. -/
def textualCollapseCurDir (l : List Component) : List Component :=
  l.filter (fun comp => comp != Component.CurDir)

/-- One step of textual `name/..` cancellation over a reversed prefix stack. -/
def textualCollapseParentDirStep (stack : List Component) (comp : Component) : List Component :=
  match comp, stack with
  | Component.ParentDir, Component.Normal _ :: stack2 => stack2
  | _, _ => comp :: stack

/-- Textual `name/..` cancellation over a component stream: the normalization
the spec says is NOT performed before resolution. -/
def textualCollapseParentDir (l : List Component) : List Component :=
  (l.foldl textualCollapseParentDirStep []).reverse

/-- Concrete child object `a` (id 2, name code unit 97, a folder). -/
def childA : Object := { id := [2], name := [97], ty := ObjectType.Folder }

/-- Concrete child object `b` (id 3, name code unit 98, a file). -/
def childB : Object := { id := [3], name := [98], ty := ObjectType.File }

/-- Concrete grandchild object `c` (id 4, name code unit 99, a file). -/
def childC : Object := { id := [4], name := [99], ty := ObjectType.File }

/-- Concrete origin object (id 1, name code unit 82, a folder). -/
def rootO : Object := { id := [1], name := [82], ty := ObjectType.Folder }

/-- Concrete remote environment: the origin has children `a` and `b`, `a` has
child `c`, the raw parent id reported for `a` is `[1, 0, 9]` (NUL-embedded,
truncating to `[1]`), and id 1 resolves back to the origin. -/
def env1 : Content where
  enumChildren := fun i =>
    if i = [1] then Except.ok [childA, childB]
    else if i = [2] then Except.ok [childC]
    else Except.ok []
  getParentRaw := fun i =>
    if i = [2] then Except.ok [1, 0, 9]
    else Except.error 7
  objectById := fun i =>
    if i = [1] then Except.ok rootO
    else if i = [2] then Except.ok childA
    else Except.error 5

/-- Concrete remote environment in which every remote primitive fails, each
with a distinct error payload. -/
def envFail : Content where
  enumChildren := fun _ => Except.error 3
  getParentRaw := fun _ => Except.error 4
  objectById := fun _ => Except.error 5

/-- The resolver on the empty component stream. -/
theorem obc_nil (c : Content) (o : Object) :
    object_by_components c o [] = Except.error ItemByPathError.NotFound := rfl

/-- The `CurDir` branch is exactly `last_stage` on the current handle. -/
theorem obc_curdir_step (c : Content) (o : Object) (rest : List Component) :
    object_by_components c o (Component.CurDir :: rest) = object_by_components_last_stage c o rest := by
  cases rest <;> rfl

/-- The `Prefix(_)` branch fails immediately with `AbsolutePath`. -/
theorem obc_prefix_step (c : Content) (o : Object) (rest : List Component) :
    object_by_components c o (Component.PrefixComp :: rest) = Except.error ItemByPathError.AbsolutePath := rfl

/-- The `RootDir` branch fails immediately with `AbsolutePath`. -/
theorem obc_rootdir_step (c : Content) (o : Object) (rest : List Component) :
    object_by_components c o (Component.RootDir :: rest) = Except.error ItemByPathError.AbsolutePath := rfl

/-- `Normal` branch, `children()` failing: the failure is wrapped and returned. -/
theorem obc_normal_children_error (c : Content) (o : Object) (name : U16Str) (rest : List Component) (e : WinError)
    (h : o.children c = Except.error e) :
    object_by_components c o (Component.Normal name :: rest) = Except.error (ItemByPathError.Device e) := by
  simp only [object_by_components, h]

/-- `Normal` branch, enumeration exhausted without a match: `NotFound`. -/
theorem obc_normal_notfound (c : Content) (o : Object) (name : U16Str) (rest : List Component) (kids : List Object)
    (hk : o.children c = Except.ok kids)
    (hf : kids.find? (fun obj => obj.name == truncAtNul name) = none) :
    object_by_components c o (Component.Normal name :: rest) = Except.error ItemByPathError.NotFound := by
  simp only [object_by_components, hk, hf]

/-- `Normal` branch, a match found: continue through `last_stage`. -/
theorem obc_normal_found (c : Content) (o : Object) (name : U16Str) (rest : List Component) (kids : List Object) (candidate : Object)
    (hk : o.children c = Except.ok kids)
    (hf : kids.find? (fun obj => obj.name == truncAtNul name) = some candidate) :
    object_by_components c o (Component.Normal name :: rest) = object_by_components_last_stage c candidate rest := by
  simp only [object_by_components, hk, hf]
  cases rest <;> rfl

/-- `ParentDir` branch, parent-property fetch failing: the failure is wrapped. -/
theorem obc_parent_error (c : Content) (o : Object) (rest : List Component) (e : WinError)
    (h : o.parent_id c = Except.error e) :
    object_by_components c o (Component.ParentDir :: rest) = Except.error (ItemByPathError.Device e) := by
  simp only [object_by_components, h]

/-- `ParentDir` branch, identifier lookup failing: the failure is wrapped. -/
theorem obc_parent_byid_error (c : Content) (o : Object) (rest : List Component) (pid : U16Str) (e : WinError)
    (h1 : o.parent_id c = Except.ok pid) (h2 : c.objectById pid = Except.error e) :
    object_by_components c o (Component.ParentDir :: rest) = Except.error (ItemByPathError.Device e) := by
  simp only [object_by_components, h1, h2]

/-- `ParentDir` branch, both remote calls succeeding: continue through `last_stage`. -/
theorem obc_parent_ok (c : Content) (o : Object) (rest : List Component) (pid : U16Str) (candidate : Object)
    (h1 : o.parent_id c = Except.ok pid) (h2 : c.objectById pid = Except.ok candidate) :
    object_by_components c o (Component.ParentDir :: rest) = object_by_components_last_stage c candidate rest := by
  simp only [object_by_components, h1, h2]
  cases rest <;> rfl

/-- `find?` returns the first element of the suffix past a prefix of non-matches. -/
theorem find?_first_match {α : Type} (p : α → Bool) (l1 l2 : List α) (x : α)
    (h1 : ∀ y ∈ l1, p y = false) (hx : p x = true) :
    (l1 ++ x :: l2).find? p = some x := by
  induction l1 with
  | nil => simp [List.find?_cons_of_pos, hx]
  | cons a t ih =>
    have ha : p a = false := h1 a (by simp)
    have hstep : List.find? p (a :: (t ++ x :: l2)) = List.find? p (t ++ x :: l2) :=
      List.find?_cons_of_neg _ (by simp [ha])
    rw [List.cons_append, hstep]
    exact ih (fun y hy => h1 y (by simp [hy]))

/-- Truncation at the first NUL is the identity on NUL-free strings. -/
theorem truncAtNul_eq_self (xs : U16Str) (h : ∀ u ∈ xs, u ≠ 0) : truncAtNul xs = xs := by
  induction xs with
  | nil => rfl
  | cons a t ih =>
    have ha : a ≠ 0 := h a (by simp)
    simp only [truncAtNul, List.takeWhile_cons]
    simp only [bne_iff_ne, ne_eq, ha, not_false_eq_true, if_true]
    exact congrArg (List.cons a) (ih (fun u hu => h u (by simp [hu])))

/-- Truncation stops at an embedded NUL: everything past it is discarded. -/
theorem truncAtNul_append_nul (pre post : U16Str) : truncAtNul (pre ++ 0 :: post) = truncAtNul pre := by
  induction pre with
  | nil => simp [truncAtNul]
  | cons a t ih =>
    by_cases ha : a = 0
    · subst ha
      simp [truncAtNul]
    · simp only [List.cons_append, truncAtNul, List.takeWhile_cons] at *
      simp [bne_iff_ne, ha, ih]

/-- A successful resolution never traversed an absolute-path marker. -/
theorem obc_ok_no_marker (l : List Component) : ∀ (c : Content) (o : Object) (obj : Object),
    object_by_components c o l = Except.ok obj →
    ∀ comp ∈ l, comp ≠ Component.PrefixComp ∧ comp ≠ Component.RootDir := by
  induction l with
  | nil =>
    intro c o obj h
    simp [object_by_components] at h
  | cons head rest ih =>
    intro c o obj h comp hmem
    rcases List.mem_cons.mp hmem with hc | hc
    · subst hc
      cases comp with
      | Normal name => exact ⟨by simp, by simp⟩
      | CurDir => exact ⟨by simp, by simp⟩
      | ParentDir => exact ⟨by simp, by simp⟩
      | PrefixComp => rw [obc_prefix_step] at h; simp at h
      | RootDir => rw [obc_rootdir_step] at h; simp at h
    · cases rest with
      | nil => simp at hc
      | cons r rs =>
        cases head with
        | Normal name =>
          cases hck : Object.children o c with
          | error e =>
            rw [obc_normal_children_error c o name (r :: rs) e hck] at h
            simp at h
          | ok kids =>
            cases hf : kids.find? (fun obj2 => obj2.name == truncAtNul name) with
            | none =>
              rw [obc_normal_notfound c o name (r :: rs) kids hck hf] at h
              simp at h
            | some cand =>
              rw [obc_normal_found c o name (r :: rs) kids cand hck hf] at h
              exact ih c cand obj h comp hc
        | CurDir =>
          rw [obc_curdir_step] at h
          exact ih c o obj h comp hc
        | ParentDir =>
          cases hp : Object.parent_id o c with
          | error e =>
            rw [obc_parent_error c o (r :: rs) e hp] at h
            simp at h
          | ok pid =>
            cases hq : c.objectById pid with
            | error e =>
              rw [obc_parent_byid_error c o (r :: rs) pid e hp hq] at h
              simp at h
            | ok cand =>
              rw [obc_parent_ok c o (r :: rs) pid cand hp hq] at h
              exact ih c cand obj h comp hc
        | PrefixComp => rw [obc_prefix_step] at h; simp at h
        | RootDir => rw [obc_rootdir_step] at h; simp at h

/-- C1: for a `Normal(name)` step with a NUL-free name, the resolver
enumerates the current handle's children and selects the first child, in
enumeration order, whose cached name equals `name` by exact code-unit
equality; if the enumeration is exhausted without a match it fails with
`NotFound`, and a failure of `children()` itself is propagated unmodified. -/
theorem normal_component_first_exact_match (c : Content) (o : Object) (name : U16Str) (rest : List Component)
    (hn : ∀ u ∈ name, u ≠ 0) :
    (∀ e, Object.children o c = Except.error e →
      object_by_components c o (Component.Normal name :: rest) = Except.error (ItemByPathError.Device e))
    ∧ (∀ kids, Object.children o c = Except.ok kids → (∀ k ∈ kids, k.name ≠ name) →
      object_by_components c o (Component.Normal name :: rest) = Except.error ItemByPathError.NotFound)
    ∧ (∀ l1 candidate l2, Object.children o c = Except.ok (l1 ++ candidate :: l2) →
      candidate.name = name → (∀ k ∈ l1, k.name ≠ name) →
      object_by_components c o (Component.Normal name :: rest) =
        object_by_components_last_stage c candidate rest) := by
  have ht : truncAtNul name = name := truncAtNul_eq_self name hn
  refine ⟨fun e he => obc_normal_children_error c o name rest e he, ?_, ?_⟩
  · intro kids hk hnm
    apply obc_normal_notfound c o name rest kids hk
    rw [ht]
    exact List.find?_eq_none.mpr (fun k hkm => by simp [hnm k hkm])
  · intro l1 candidate l2 hk hcand hl1
    apply obc_normal_found c o name rest (l1 ++ candidate :: l2) candidate hk
    rw [ht]
    exact find?_first_match _ l1 l2 candidate
      (fun y hy => by simp [hl1 y hy]) (by simp [hcand])

/-- Witness for C1: in the concrete environment, the name with code unit 97
selects the first child `childA` of the origin. -/
theorem normal_component_first_exact_match_witness :
    object_by_components env1 rootO [Component.Normal [97]] = Except.ok childA := by
  have h := (normal_component_first_exact_match env1 rootO [97] [] (by decide)).2.2
    [] childA [childB] rfl rfl (by simp)
  exact h

/-- C2: the resolver performs no textual normalization of the component
stream: a `.` head is resolved structurally by keeping the current handle, a
`..` head is resolved structurally through one parent-identifier remote
lookup, and collapsing `.` or `name/..` textually before the walk changes the
observable result, as the two concrete pairs show (so the code cannot be
collapsing them). -/
theorem no_textual_normalization_structural_rules :
    (∀ (c : Content) (o : Object) (rest : List Component),
      object_by_components c o (Component.CurDir :: rest) = object_by_components_last_stage c o rest)
    ∧ (∀ (c : Content) (o : Object) (rest : List Component) (pid : U16Str) (candidate : Object),
      Object.parent_id o c = Except.ok pid → c.objectById pid = Except.ok candidate →
      object_by_components c o (Component.ParentDir :: rest) = object_by_components_last_stage c candidate rest)
    ∧ (object_by_components env1 rootO [Component.CurDir] = Except.ok rootO
      ∧ object_by_components env1 rootO (textualCollapseCurDir [Component.CurDir]) = Except.error ItemByPathError.NotFound)
    ∧ (object_by_components env1 rootO [Component.Normal [97], Component.ParentDir] = Except.ok rootO
      ∧ object_by_components env1 rootO (textualCollapseParentDir [Component.Normal [97], Component.ParentDir]) = Except.error ItemByPathError.NotFound) := by
  refine ⟨obc_curdir_step, ?_, ⟨rfl, rfl⟩, ⟨rfl, rfl⟩⟩
  intro c o rest pid candidate h1 h2
  exact obc_parent_ok c o rest pid candidate h1 h2

/-- Witness for C2: the structural `..`-then-`.` walk from `childA` climbs to
the origin through the parent-identifier lookup. -/
theorem no_textual_normalization_structural_rules_witness :
    object_by_components env1 childA [Component.ParentDir, Component.CurDir] = Except.ok rootO := by
  have h := no_textual_normalization_structural_rules.2.1 env1 childA [Component.CurDir] [1] rootO rfl rfl
  exact h

/-- C3: resolving the empty component stream against any origin through the
public entry point always fails with `NotFound`; it never returns the origin
handle itself. -/
theorem empty_path_not_found (c : Content) (o : Object) :
    object_by_path c o [] = Except.error ItemByPathError.NotFound := rfl

/-- C4: an absolute-path marker fails with `AbsolutePath` the moment it is
reached, whatever the remaining components and whatever the remote
environment does (so no remote call is involved for that component);
consequently a stream containing such a marker anywhere never resolves
successfully. -/
theorem root_or_prefix_absolute_path :
    (∀ (c : Content) (o : Object) (rest : List Component),
      object_by_components c o (Component.PrefixComp :: rest) = Except.error ItemByPathError.AbsolutePath
      ∧ object_by_components c o (Component.RootDir :: rest) = Except.error ItemByPathError.AbsolutePath)
    ∧ (∀ (c : Content) (o : Object) (l : List Component) (obj : Object),
      object_by_components c o l = Except.ok obj →
      ∀ comp ∈ l, comp ≠ Component.PrefixComp ∧ comp ≠ Component.RootDir) := by
  refine ⟨fun c o rest => ⟨obc_prefix_step c o rest, obc_rootdir_step c o rest⟩, ?_⟩
  intro c o l obj h
  exact obc_ok_no_marker l c o obj h

/-- Witness for C4: the successful one-component walk in the concrete
environment traversed no absolute-path marker. -/
theorem root_or_prefix_absolute_path_witness :
    Component.CurDir ≠ Component.PrefixComp ∧ Component.CurDir ≠ Component.RootDir :=
  root_or_prefix_absolute_path.2 env1 rootO [Component.CurDir] rootO rfl Component.CurDir (by simp)

/-- C5: resolving the single `..` component from a handle agrees with pushing
`parent_id()` through the context's identifier-lookup primitive when both
remote calls succeed, and a failing parent-property fetch (notably a root
with no parent) aborts resolution carrying exactly that failure — the spec's
`PropertyLookupError`. -/
theorem parent_dir_resolves_via_parent_id (c : Content) (o : Object) :
    (∀ pid obj, Object.parent_id o c = Except.ok pid → c.objectById pid = Except.ok obj →
      object_by_components c o [Component.ParentDir] = Except.ok obj)
    ∧ (∀ e, Object.parent_id o c = Except.error e →
      object_by_components c o [Component.ParentDir] = Except.error (ItemByPathError.Device e)) := by
  constructor
  · intro pid obj h1 h2
    exact obc_parent_ok c o [] pid obj h1 h2
  · intro e h
    exact obc_parent_error c o [] e h

/-- Witness for C5: the parent lookup for `childA` reaches the origin, and a
root whose parent-property fetch fails surfaces that failure. -/
theorem parent_dir_resolves_via_parent_id_witness :
    object_by_components env1 childA [Component.ParentDir] = Except.ok rootO
    ∧ object_by_components envFail rootO [Component.ParentDir] = Except.error (ItemByPathError.Device 4) :=
  ⟨(parent_dir_resolves_via_parent_id env1 childA).1 [1] rootO rfl rfl,
    (parent_dir_resolves_via_parent_id envFail rootO).2 4 rfl⟩

/-- C6: resolution is all-or-nothing: whichever remote primitive fails first
(child enumeration, parent-property fetch, or identifier lookup), the whole
resolution aborts at once with exactly that failure, unmodified, regardless
of how many components remain; no retry and no partial result exist. -/
theorem first_remote_failure_aborts_unmodified :
    (∀ (c : Content) (o : Object) (name : U16Str) (rest : List Component) (e : WinError),
      Object.children o c = Except.error e →
      object_by_components c o (Component.Normal name :: rest) = Except.error (ItemByPathError.Device e))
    ∧ (∀ (c : Content) (o : Object) (rest : List Component) (e : WinError),
      Object.parent_id o c = Except.error e →
      object_by_components c o (Component.ParentDir :: rest) = Except.error (ItemByPathError.Device e))
    ∧ (∀ (c : Content) (o : Object) (rest : List Component) (pid : U16Str) (e : WinError),
      Object.parent_id o c = Except.ok pid → c.objectById pid = Except.error e →
      object_by_components c o (Component.ParentDir :: rest) = Except.error (ItemByPathError.Device e)) :=
  ⟨obc_normal_children_error, obc_parent_error, obc_parent_byid_error⟩

/-- Witness for C6: the failing enumeration aborts a three-component walk at
its first step with the enumeration's own error payload. -/
theorem first_remote_failure_aborts_unmodified_witness :
    object_by_components envFail rootO
      [Component.Normal [97], Component.Normal [98], Component.Normal [99]]
      = Except.error (ItemByPathError.Device 3) :=
  first_remote_failure_aborts_unmodified.1 envFail rootO [97]
    [Component.Normal [98], Component.Normal [99]] 3 rfl

/-- C7: `sub_folders()` yields exactly the order-preserving subsequence of the
`children()` enumeration keeping the `Folder`-typed entries — nothing
reordered, nothing duplicated, no non-folder kept, no folder dropped — and it
propagates a failure of `children()`. -/
theorem sub_folders_filters_children_in_order (c : Content) (o : Object) :
    (∀ e, Object.children o c = Except.error e → Object.sub_folders o c = Except.error e)
    ∧ (∀ kids, Object.children o c = Except.ok kids →
      ∃ subs, Object.sub_folders o c = Except.ok subs
        ∧ List.Sublist subs kids
        ∧ (∀ x ∈ subs, x.ty = ObjectType.Folder)
        ∧ (∀ x ∈ kids, x.ty = ObjectType.Folder → x ∈ subs)
        ∧ (∀ x : Object, x.ty = ObjectType.Folder → List.count x subs = List.count x kids)) := by
  constructor
  · intro e he
    simp only [Object.sub_folders, he]
    rfl
  · intro kids hk
    refine ⟨kids.filter (fun obj => obj.ty == ObjectType.Folder), ?_,
      List.filter_sublist kids, ?_, ?_, ?_⟩
    · simp only [Object.sub_folders, hk]
      rfl
    · intro x hx
      simpa using (List.mem_filter.mp hx).2
    · intro x hx hf
      exact List.mem_filter.mpr ⟨hx, by simp [hf]⟩
    · intro x hf
      exact List.count_filter (by simp [hf])

/-- Witness for C7: the origin's children are a folder then a file; the
folder is kept as a subsequence element. -/
theorem sub_folders_filters_children_in_order_witness :
    ∃ subs, Object.sub_folders rootO env1 = Except.ok subs
      ∧ List.Sublist subs [childA, childB] ∧ childA ∈ subs := by
  obtain ⟨subs, h1, h2, _, h4, _⟩ :=
    (sub_folders_filters_children_in_order env1 rootO).2 [childA, childB] rfl
  exact ⟨subs, h1, h2, h4 childA (by simp) rfl⟩

/-- C8: resolving the single `.` component from any handle under any remote
environment succeeds with that very handle (hence the same identifier), and
since the result is the same for every environment, no remote call is
involved. -/
theorem curdir_identity (c : Content) (o : Object) :
    object_by_components c o [Component.CurDir] = Except.ok o := rfl

/-- Any fuel at least the component count is enough for the fueled resolver
to agree with the resolver. -/
theorem obc_fuel_adequate : ∀ (n : Nat) (c : Content) (o : Object) (l : List Component),
    l.length ≤ n →
    object_by_components_fuel c n o l = some (object_by_components c o l) := by
  intro n
  induction n with
  | zero =>
    intro c o l hl
    have hnil : l = [] := List.length_eq_zero.mp (Nat.le_zero.mp hl)
    subst hnil
    rfl
  | succ m ih =>
    intro c o l hl
    cases l with
    | nil => rfl
    | cons head rest =>
      have hr : rest.length ≤ m := by simpa using hl
      cases head with
      | Normal name =>
        cases hck : Object.children o c with
        | error e => simp only [object_by_components_fuel, object_by_components, hck]
        | ok kids =>
          cases hf : kids.find? (fun obj2 => obj2.name == truncAtNul name) with
          | none => simp only [object_by_components_fuel, object_by_components, hck, hf]
          | some cand =>
            cases rest with
            | nil => simp only [object_by_components_fuel, object_by_components, hck, hf]
            | cons r rs =>
              simp only [object_by_components_fuel, object_by_components, hck, hf]
              exact ih c cand (r :: rs) hr
      | CurDir =>
        cases rest with
        | nil => rfl
        | cons r rs =>
          simp only [object_by_components_fuel, object_by_components]
          exact ih c o (r :: rs) hr
      | ParentDir =>
        cases hp : Object.parent_id o c with
        | error e => simp only [object_by_components_fuel, object_by_components, hp]
        | ok pid =>
          cases hq : c.objectById pid with
          | error e => simp only [object_by_components_fuel, object_by_components, hp, hq]
          | ok cand =>
            cases rest with
            | nil => simp only [object_by_components_fuel, object_by_components, hp, hq]
            | cons r rs =>
              simp only [object_by_components_fuel, object_by_components, hp, hq]
              exact ih c cand (r :: rs) hr
      | PrefixComp => rfl
      | RootDir => rfl

/-- C9: the resolver's recursion is fueled by the input component count
alone: giving the fueled resolver exactly `l.length` units of fuel — one per
consumed component, with `.` and `..` consuming theirs and never growing the
stream — already reproduces the unfueled resolver on every input and every
remote environment, so the recursion depth is bounded by the component count
independently of the remote tree. -/
theorem resolution_fuel_bounded_by_components (c : Content) (o : Object) (l : List Component) :
    object_by_components_fuel c l.length o l = some (object_by_components c o l) :=
  obc_fuel_adequate l.length c o l (Nat.le_refl _)

/-- C10: NUL truncation: a `Normal` component resolves exactly as its prefix
before the first embedded NUL code unit does (the needle is truncated before
matching), and `parent_id()` returns the remote-reported parent identifier
truncated at its first NUL. -/
theorem nul_truncation_matching_and_parent :
    (∀ (c : Content) (o : Object) (pre post : U16Str) (rest : List Component),
      object_by_components c o (Component.Normal (pre ++ 0 :: post) :: rest)
        = object_by_components c o (Component.Normal pre :: rest))
    ∧ (∀ (c : Content) (o : Object) (pre post : U16Str),
      (∀ u ∈ pre, u ≠ 0) → c.getParentRaw o.id = Except.ok (pre ++ 0 :: post) →
      Object.parent_id o c = Except.ok pre) := by
  constructor
  · intro c o pre post rest
    simp only [object_by_components, truncAtNul_append_nul]
  · intro c o pre post hp hraw
    simp [Object.parent_id, hraw, truncAtNul_append_nul, truncAtNul_eq_self pre hp]

/-- Witness for C10: the raw parent id `[1, 0, 9]` reported for `childA` is
truncated to `[1]`. -/
theorem nul_truncation_matching_and_parent_witness :
    Object.parent_id childA env1 = Except.ok [1] :=
  nul_truncation_matching_and_parent.2 env1 childA [1] [9] (by decide) rfl
